import Mathlib

/-!
Shallow embedding of the metadata resolution engine of the
aws_service_profiles package (aws_client.py and service_helper.py).

Modelling conventions, matching the Python source:
- A parsed per-service JSON document is a ServiceDoc.  Python reads each
  sub-collection with a defaulting accessor (metadata.get(key, default)),
  so an absent field and its default value are indistinguishable at every
  use site; the embedding therefore stores the defaulted value directly:
  an absent Actions field is the empty list, an absent Resources field is
  the empty mapping, an absent ARNFormats field is the empty list variant,
  an absent ConditionKeys field is the empty list.
- The Resources collection is either a JSON object (a mapping from
  resource name to record, modelled as an association list in insertion
  order) or a JSON array of records each carrying a Name field.
- The network layer is modelled by a Catalog: the service index paired
  with, per service, either the parsed document (Except.ok) or a fetch
  failure (Except.error), standing for the exceptions that requests.get
  or JSON parsing raise in find_all_service_metadata.
- Python string truthiness (empty string and empty list are falsy) is
  translated explicitly at each site where the source relies on it.
-/

/-- The ARNFormats field of a resource record: either a JSON list of
strings or a single scalar string.  An absent field behaves exactly like
ArnValue.list [] (the Python default). -/
inductive ArnValue where
  | list (l : List String)
  | scalar (s : String)
deriving DecidableEq

/-- One resource record in a service document.  name models the optional
Name field (used by the array encoding of Resources). -/
structure ResourceData where
  name : Option String
  arn_formats_field : ArnValue
  condition_keys_field : List String
deriving DecidableEq

/-- The Resources collection of a service document: a mapping (JSON
object, kept in insertion order) or an array of records.  An absent
Resources field behaves exactly like ResourcesField.dict []. -/
inductive ResourcesField where
  | dict (entries : List (String × ResourceData))
  | seq (entries : List ResourceData)
deriving DecidableEq

/-- One entry of the Resources list attached to an action: the source
indexes resource["Name"] directly, so the field is mandatory. -/
structure ActionResourceRef where
  name : String
deriving DecidableEq

/-- One action record in a service document. -/
structure ActionData where
  name : String
  resources : Option (List ActionResourceRef)
  action_condition_keys : List String
deriving DecidableEq

/-- One service-level condition key record (only its Name is read). -/
structure ConditionKeyData where
  name : String
deriving DecidableEq

/-- A parsed per-service metadata document. -/
structure ServiceDoc where
  actions : List ActionData
  resources : ResourcesField
  condition_keys : List ConditionKeyData
deriving DecidableEq

/-- The record shape returned by get_resource_details and (with the last
field emitted under the JSON key condition_keys) by the per-resource
entries of get_action_metadata. -/
structure ResourceDetail where
  name : String
  arn_formats : List String
  context_keys : List String
deriving DecidableEq

/-- The record shape returned by get_action_metadata. -/
structure ActionDetail where
  name : String
  resources : List ResourceDetail
  condition_keys : List String
deriving DecidableEq

/-- Normalisation of an ARNFormats value as performed inline in
get_resource_details and get_all_unique_resources_for_service: a
non-empty list passes through, a truthy scalar is wrapped in a singleton
list, and a falsy value (empty list, absent field, empty string) becomes
the sentinel ["N/A"]. -/
def arn_display : ArnValue → List String
  | ArnValue.list l => if l = [] then ["N/A"] else l
  | ArnValue.scalar s => if s = "" then ["N/A"] else [s]

/-- The resource names present in the Resources collection (the keys of
the mapping encoding, or the Name fields present in the array encoding). -/
def doc_resource_names (d : ServiceDoc) : List String :=
  match d.resources with
  | ResourcesField.dict entries => entries.map (fun e => e.1)
  | ResourcesField.seq entries => entries.filterMap (fun rd => rd.name)

/-- AWSClient.get_resource_details, document level: look the resource up
in the Resources collection, handling both encodings, and normalise its
ARNFormats; the first matching entry wins. -/
def get_resource_details_doc (d : ServiceDoc) (resource_name : String) : Option ResourceDetail :=
  match d.resources with
  | ResourcesField.dict entries =>
    match entries.find? (fun e => e.1 == resource_name) with
    | some e => some ⟨resource_name, arn_display e.2.arn_formats_field, e.2.condition_keys_field⟩
    | none => none
  | ResourcesField.seq entries =>
    match entries.find? (fun rd => rd.name == some resource_name) with
    | some rd => some ⟨resource_name, arn_display rd.arn_formats_field, rd.condition_keys_field⟩
    | none => none

/-- AWSClient.get_action_metadata, document level: find the first action
with the requested name, join each referenced resource with its details
(falling back to arn_formats ["N/A"] and condition_keys [] when the
resource is undocumented), or produce the single wildcard record when the
action has no Resources field. -/
def get_action_metadata_doc (d : ServiceDoc) (action_name : String) : Option ActionDetail :=
  match d.actions.find? (fun act => act.name == action_name) with
  | none => none
  | some act =>
    let resources : List ResourceDetail :=
      match act.resources with
      | some rs =>
        rs.map (fun ref =>
          match get_resource_details_doc d ref.name with
          | some det => ⟨ref.name, det.arn_formats, det.context_keys⟩
          | none => ⟨ref.name, ["N/A"], []⟩)
      | none => [⟨"*", ["*"], []⟩]
    some ⟨action_name, resources, act.action_condition_keys⟩

/-- AWSClient.get_all_actions_for_service, document level. -/
def get_all_actions_doc (d : ServiceDoc) : List String :=
  d.actions.map (fun act => act.name)

/-- AWSClient.get_resources_for_service_action, document level: the Name
fields of the explicit Resources list of the first matching action, the
wildcard ["*"] when that action has no Resources field, and [] when no
action matches. -/
def get_resources_for_service_action_doc (d : ServiceDoc) (action_name : String) : List String :=
  match d.actions.find? (fun act => act.name == action_name) with
  | some act =>
    match act.resources with
    | some rs => rs.map (fun ref => ref.name)
    | none => ["*"]
  | none => []

/-- AWSClient.get_condition_keys_for_service, document level. -/
def get_condition_keys_doc (d : ServiceDoc) : List String :=
  d.condition_keys.map (fun k => k.name)

/-- AWSClient.get_condition_keys_for_action, document level. -/
def get_condition_keys_for_action_doc (d : ServiceDoc) (action_name : String) : List String :=
  match d.actions.find? (fun act => act.name == action_name) with
  | some act => act.action_condition_keys
  | none => []

/-- AWSClient.get_all_unique_resources_for_service, document level: one
detail record per entry of the Resources collection, in collection order
(mapping insertion order, or array order with the Unknown placeholder for
a record lacking a Name field). -/
def get_all_unique_resources_doc (d : ServiceDoc) : List ResourceDetail :=
  match d.resources with
  | ResourcesField.dict entries =>
    entries.map (fun e => ⟨e.1, arn_display e.2.arn_formats_field, e.2.condition_keys_field⟩)
  | ResourcesField.seq entries =>
    entries.map (fun rd =>
      ⟨rd.name.getD "Unknown", arn_display rd.arn_formats_field, rd.condition_keys_field⟩)

/-- The multiset of context keys gathered by
get_all_unique_context_keys_for_service before set-deduplication:
service-level keys, per-action keys, per-resource keys. -/
def collect_context_keys (d : ServiceDoc) : List String :=
  get_condition_keys_doc d
    ++ (d.actions.map (fun act => act.action_condition_keys)).flatten
    ++ (match d.resources with
        | ResourcesField.dict entries =>
          (entries.map (fun e => e.2.condition_keys_field)).flatten
        | ResourcesField.seq entries =>
          (entries.map (fun rd => rd.condition_keys_field)).flatten)

/-- Python substring containment (needle in hay) on character lists. -/
def sub_occurs (needle : List Char) : List Char → Bool
  | [] => needle.isEmpty
  | c :: rest => needle.isPrefixOf (c :: rest) || sub_occurs needle rest

/-- Python substring containment on strings. -/
def str_in (needle hay : String) : Bool :=
  sub_occurs needle.data hay.data

/-- Python str.lower, per code point (the catalog service names are
ASCII, where Char.toLower agrees with Python). -/
def str_lower (s : String) : String :=
  String.mk (s.data.map Char.toLower)

/-- Python str.startswith on code points. -/
def str_starts_with (s pre : String) : Bool :=
  pre.data.isPrefixOf s.data

/-- Python slicing s[:n] on code points. -/
def str_take (s : String) (n : Nat) : String :=
  String.mk (s.data.take n)

/-- Python str.split("-") on code points: the maximal runs between
hyphens, empty runs included. -/
def split_dash_chars : List Char → List (List Char)
  | [] => [[]]
  | c :: rest =>
    match split_dash_chars rest, decide (c = '-') with
    | r, true => [] :: r
    | [], false => [[c]]
    | h :: t, false => (c :: h) :: t

/-- Python str.split("-") lifted to strings. -/
def str_split_dash (s : String) : List String :=
  (split_dash_chars s.data).map String.mk

/-- Python len on strings (code points). -/
def str_len (s : String) : Nat :=
  s.data.length

/-- Boolean code-point lexicographic comparison of character lists, the
order Python sorted uses on strings. -/
def chars_le : List Char → List Char → Bool
  | [], _ => true
  | _ :: _, [] => false
  | a :: as, b :: bs => decide (a < b) || (a == b && chars_le as bs)

/-- Boolean lexicographic comparison lifted to strings. -/
def pystr_le (a b : String) : Bool :=
  chars_le a.data b.data

/-- The comparison as a relation, for use with the generic sort. -/
def pystr_le_rel (a b : String) : Prop :=
  pystr_le a b = true

instance pystr_le_rel_dec : DecidableRel pystr_le_rel :=
  fun a b => inferInstanceAs (Decidable (pystr_le a b = true))

/-- The model of Python sorted(list(set(xs))) for strings: the sorted
listing of the distinct elements. -/
def sorted_dedup (l : List String) : List String :=
  List.insertionSort pystr_le_rel l.dedup

/-- AWSClient.get_all_unique_context_keys_for_service, document level. -/
def get_all_unique_context_keys_doc (d : ServiceDoc) : List String :=
  sorted_dedup (collect_context_keys d)

/-- AWSClient.separate_global_and_service_context_keys: partition a key
list by the aws: name convention and sort each side; the first component
is the global_keys value, the second the service_keys value of the
returned mapping. -/
def separate_global_and_service_context_keys (context_keys : List String) :
    List String × List String :=
  (List.insertionSort pystr_le_rel
    (context_keys.filter (fun k => str_starts_with k "aws:")),
   List.insertionSort pystr_le_rel
    (context_keys.filter (fun k => !str_starts_with k "aws:")))

/-- The memoized two-level remote catalog: the service index, each entry
carrying the outcome of fetching and parsing that service document.  The
entry name plays the role of both the service field of the index entry
and (through find_service) the url it resolves to. -/
abbrev Catalog : Type := List (String × Except Unit ServiceDoc)

/-- AWSClient.get_aws_services_urls, projected to the service names that
every consumer extracts from the index entries. -/
def get_aws_services_urls (c : Catalog) : List String :=
  c.map (fun e => e.1)

/-- ServiceHelper.is_valid_service: exact membership of the name in the
service index. -/
def is_valid_service (c : Catalog) (service_name : String) : Bool :=
  (get_aws_services_urls c).contains service_name

/-- AWSClient.find_all_service_metadata: an unknown name short-circuits
to None before any fetch (Except.ok none); a known name surfaces the
fetch outcome of its document. -/
def find_all_service_metadata (c : Catalog) (service_name : String) :
    Except Unit (Option ServiceDoc) :=
  match c.find? (fun e => e.1 == service_name) with
  | none => Except.ok none
  | some e =>
    match e.2 with
    | Except.error err => Except.error err
    | Except.ok d => Except.ok (some d)

/-- AWSClient.get_action_metadata at catalog level. -/
def get_action_metadata (c : Catalog) (service_name action_name : String) :
    Except Unit (Option ActionDetail) :=
  (find_all_service_metadata c service_name).map (fun md =>
    match md with
    | none => none
    | some d => get_action_metadata_doc d action_name)

/-- AWSClient.get_all_actions_for_service at catalog level. -/
def get_all_actions_for_service (c : Catalog) (service_name : String) :
    Except Unit (List String) :=
  (find_all_service_metadata c service_name).map (fun md =>
    match md with
    | none => []
    | some d => get_all_actions_doc d)

/-- AWSClient.get_resources_for_service_action at catalog level. -/
def get_resources_for_service_action (c : Catalog) (service_name action_name : String) :
    Except Unit (List String) :=
  (find_all_service_metadata c service_name).map (fun md =>
    match md with
    | none => []
    | some d => get_resources_for_service_action_doc d action_name)

/-- AWSClient.get_condition_keys_for_service at catalog level. -/
def get_condition_keys_for_service (c : Catalog) (service_name : String) :
    Except Unit (List String) :=
  (find_all_service_metadata c service_name).map (fun md =>
    match md with
    | none => []
    | some d => get_condition_keys_doc d)

/-- AWSClient.get_resource_details at catalog level. -/
def get_resource_details (c : Catalog) (service_name resource_name : String) :
    Except Unit (Option ResourceDetail) :=
  (find_all_service_metadata c service_name).map (fun md =>
    match md with
    | none => none
    | some d => get_resource_details_doc d resource_name)

/-- AWSClient.get_all_unique_resources_for_service at catalog level. -/
def get_all_unique_resources_for_service (c : Catalog) (service_name : String) :
    Except Unit (List ResourceDetail) :=
  (find_all_service_metadata c service_name).map (fun md =>
    match md with
    | none => []
    | some d => get_all_unique_resources_doc d)

/-- AWSClient.get_all_unique_context_keys_for_service at catalog level. -/
def get_all_unique_context_keys_for_service (c : Catalog) (service_name : String) :
    Except Unit (List String) :=
  (find_all_service_metadata c service_name).map (fun md =>
    match md with
    | none => []
    | some d => get_all_unique_context_keys_doc d)

/-- Python dict assignment on an association list kept in insertion
order: an existing key keeps its position and gets the new value, a new
key is appended. -/
def dict_insert (m : List (String × List String)) (k : String) (v : List String) :
    List (String × List String) :=
  match m with
  | [] => [(k, v)]
  | e :: rest => if e.1 == k then (k, v) :: rest else e :: dict_insert rest k v

/-- Lookup in the association-list model of a Python dict. -/
def dict_lookup (m : List (String × List String)) (k : String) : Option (List String) :=
  (m.find? (fun e => e.1 == k)).map (fun e => e.2)

/-- The loop body of _get_all_unique_context_keys_across_aws_cached: walk
the index names, skip a service whose per-service computation raises, and
record the keys of a service only when the list is truthy (non-empty). -/
def across_loop (c : Catalog) : List String → List (String × List String) →
    List (String × List String)
  | [], acc => acc
  | n :: rest, acc =>
    match get_all_unique_context_keys_for_service c n with
    | Except.error _ => across_loop c rest acc
    | Except.ok keys =>
      if keys.isEmpty then across_loop c rest acc
      else across_loop c rest (dict_insert acc n keys)

/-- AWSClient._get_all_unique_context_keys_across_aws_cached, which is
also the value of the public get_all_unique_context_keys_across_aws. -/
def get_all_unique_context_keys_across_aws (c : Catalog) : List (String × List String) :=
  across_loop c (get_aws_services_urls c) []

/-- AWSClient.get_all_unique_context_keys_flattened: the sorted set union
of the per-service key lists of the catalog-wide aggregation. -/
def get_all_unique_context_keys_flattened (c : Catalog) : List String :=
  sorted_dedup ((get_all_unique_context_keys_across_aws c).map (fun e => e.2)).flatten

/-- AWSClient.get_separated_context_keys_for_service at catalog level. -/
def get_separated_context_keys_for_service (c : Catalog) (service_name : String) :
    Except Unit (List String × List String) :=
  (get_all_unique_context_keys_for_service c service_name).map
    separate_global_and_service_context_keys

/-- AWSClient.get_global_context_keys_for_service at catalog level. -/
def get_global_context_keys_for_service (c : Catalog) (service_name : String) :
    Except Unit (List String) :=
  (get_separated_context_keys_for_service c service_name).map (fun p => p.1)

/-- AWSClient.get_service_specific_context_keys_for_service at catalog
level. -/
def get_service_specific_context_keys_for_service (c : Catalog) (service_name : String) :
    Except Unit (List String) :=
  (get_separated_context_keys_for_service c service_name).map (fun p => p.2)

/-- ServiceHelper.get_similar_services: lowercase the invalid input once,
keep every index-order candidate whose lowercase form satisfies one of
the three match conditions of the source, and truncate to the suggestion
cap. -/
def get_similar_services (service_names : List String) (invalid_service : String)
    (max_suggestions : Nat) : List String :=
  let invalid_lower := str_lower invalid_service
  let suggestions := service_names.filter (fun service =>
    let service_lower := str_lower service
    str_in invalid_lower service_lower
      || str_starts_with service_lower (str_take invalid_lower 3)
      || (str_split_dash invalid_lower).any (fun part =>
            decide (2 < str_len part) && str_in part service_lower))
  suggestions.take max_suggestions

/-- Modelled from the spec wording of the suggestion heuristic, for
comparison with the source behaviour: a candidate is offered when the
input is a substring of it, or it starts with the first three characters
of the input, or some hyphen-delimited segment of the input longer than
two characters is a substring of it.  No case folding appears in this
wording. -/
def claim_suggestion_rule (input candidate : String) : Bool :=
  str_in input candidate
    || str_starts_with candidate (str_take input 3)
    || (str_split_dash input).any (fun seg =>
          decide (2 < str_len seg) && str_in seg candidate)

/-- The array-encoding image of one mapping entry: the same record now
carrying its key as its Name field (the correspondence behind the
structural-variance round trip). -/
def to_seq_entry (e : String × ResourceData) : ResourceData :=
  ⟨some e.1, e.2.arn_formats_field, e.2.condition_keys_field⟩

/-- AWSClient.get_unique_resources_count_for_service, document level: the
raw size of the Resources collection in either encoding. -/
def get_unique_resources_count_doc (d : ServiceDoc) : Nat :=
  match d.resources with
  | ResourcesField.dict entries => entries.length
  | ResourcesField.seq entries => entries.length

/-- Fixture: a documented resource record. -/
def ex_widget_data : ResourceData :=
  ⟨none, ArnValue.list ["arn:aws:svc:::widget"], ["svc:wk"]⟩

/-- Fixture: an action referencing one documented and one undocumented
resource. -/
def ex_act_do : ActionData :=
  ⟨"DoThing", some [⟨"widget"⟩, ⟨"ghost"⟩], ["aws:userid", "svc:foo"]⟩

/-- Fixture: an action with no Resources field. -/
def ex_act_list : ActionData :=
  ⟨"ListThings", none, []⟩

/-- Fixture: a small well-formed service document. -/
def ex_doc : ServiceDoc :=
  ⟨[ex_act_do, ex_act_list],
   ResourcesField.dict [("widget", ex_widget_data)],
   [⟨"aws:sourceip"⟩]⟩

/-- Fixture: a catalog with one healthy service and one whose document
fetch fails. -/
def ex_catalog : Catalog :=
  [("svc", Except.ok ex_doc), ("bad", Except.error ())]

/-- Fixture: a resource record repeated twice in the array encoding. -/
def dup_resource : ResourceData :=
  ⟨some "a", ArnValue.list [], []⟩

/-- Fixture: a document whose Resources array holds the same record
twice. -/
def dup_doc : ServiceDoc :=
  ⟨[], ResourcesField.seq [dup_resource, dup_resource], []⟩

/-- Fixture: a catalog holding only the duplicate-resource document. -/
def dup_catalog : Catalog :=
  [("svc", Except.ok dup_doc)]

theorem lex_cons_cons_iff {a b : Char} {as bs : List Char} :
    List.Lex (fun x y : Char => x < y) (a :: as) (b :: bs) ↔
      (a < b ∨ (a = b ∧ List.Lex (fun x y : Char => x < y) as bs)) := by
  constructor
  · intro h
    cases h with
    | cons h => exact Or.inr ⟨rfl, h⟩
    | rel h => exact Or.inl h
  · rintro (h | ⟨rfl, h⟩)
    · exact List.Lex.rel h
    · exact List.Lex.cons h

theorem chars_le_iff_not_lex (x y : List Char) :
    chars_le x y = true ↔ ¬ List.Lex (fun a b : Char => a < b) y x := by
  induction x generalizing y with
  | nil =>
    exact iff_of_true rfl (List.Lex.not_nil_right _ _)
  | cons a as ih =>
    cases y with
    | nil =>
      apply iff_of_false
      · simp [chars_le]
      · intro h
        exact h List.Lex.nil
    | cons b bs =>
      rw [show (¬ List.Lex (fun x y : Char => x < y) (b :: bs) (a :: as)) ↔
          ¬ (b < a ∨ (b = a ∧ List.Lex (fun x y : Char => x < y) bs as)) from
        not_congr lex_cons_cons_iff]
      simp only [chars_le, Bool.or_eq_true, decide_eq_true_eq, Bool.and_eq_true, beq_iff_eq]
      constructor
      · rintro (hab | ⟨heq, hrec⟩)
        · rintro (hba | ⟨hba, hlex⟩)
          · exact absurd hab (lt_asymm hba)
          · rw [hba] at hab
            exact lt_irrefl a hab
        · rintro (hba | ⟨hba, hlex⟩)
          · rw [heq] at hba
            exact lt_irrefl b hba
          · exact (ih bs).mp hrec hlex
      · intro h
        rcases lt_trichotomy a b with hab | heq | hba
        · exact Or.inl hab
        · refine Or.inr ⟨heq, (ih bs).mpr ?_⟩
          intro hlex
          exact h (Or.inr ⟨heq.symm, hlex⟩)
        · exact absurd (Or.inl hba) h

theorem pystr_le_iff (a b : String) : pystr_le a b = true ↔ a ≤ b := by
  rw [String.le_iff_toList_le, ← not_lt]
  exact chars_le_iff_not_lex a.data b.data

theorem pystr_le_rel_total (a b : String) : pystr_le_rel a b ∨ pystr_le_rel b a := by
  rcases le_total a b with h | h
  · exact Or.inl ((pystr_le_iff a b).mpr h)
  · exact Or.inr ((pystr_le_iff b a).mpr h)

theorem pystr_le_rel_trans (a b c : String) (hab : pystr_le_rel a b)
    (hbc : pystr_le_rel b c) : pystr_le_rel a c :=
  (pystr_le_iff a c).mpr (le_trans ((pystr_le_iff a b).mp hab) ((pystr_le_iff b c).mp hbc))

theorem mem_sorted_dedup {k : String} {l : List String} :
    k ∈ sorted_dedup l ↔ k ∈ l := by
  unfold sorted_dedup
  rw [(List.perm_insertionSort _ _).mem_iff, List.mem_dedup]

theorem pairwise_lt_sorted_dedup (l : List String) :
    (sorted_dedup l).Pairwise (fun a b => a < b) := by
  have hnd : (sorted_dedup l).Nodup :=
    ((List.perm_insertionSort _ _).nodup_iff).mpr (List.nodup_dedup l)
  have hs : (sorted_dedup l).Sorted pystr_le_rel :=
    @List.sorted_insertionSort String pystr_le_rel pystr_le_rel_dec
      ⟨pystr_le_rel_total⟩ ⟨pystr_le_rel_trans⟩ l.dedup
  have hs2 : (sorted_dedup l).Pairwise (fun a b => a ≤ b) :=
    hs.imp (fun h => (pystr_le_iff _ _).mp h)
  exact (List.Pairwise.and hs2 hnd).imp (fun h => lt_of_le_of_ne h.1 h.2)

theorem arn_display_ne_nil (v : ArnValue) : arn_display v ≠ [] := by
  cases v with
  | list l =>
    by_cases h : l = [] <;> simp [arn_display, h]
  | scalar s =>
    by_cases h : s = "" <;> simp [arn_display, h]

theorem arn_display_scalar_length (s : String) :
    (arn_display (ArnValue.scalar s)).length = 1 := by
  by_cases h : s = "" <;> simp [arn_display, h]

theorem resource_details_doc_eq_none {d : ServiceDoc} {r : String}
    (h : ¬ r ∈ doc_resource_names d) : get_resource_details_doc d r = none := by
  unfold get_resource_details_doc
  unfold doc_resource_names at h
  cases hres : d.resources with
  | dict entries =>
    rw [hres] at h
    cases hf : entries.find? (fun e => e.1 == r) with
    | none => simp [hf]
    | some e =>
      exfalso
      apply h
      have hp := List.find?_some hf
      have hm := List.mem_of_find?_eq_some hf
      have : e.1 = r := by simpa using hp
      exact this ▸ List.mem_map_of_mem (fun x => x.1) hm
  | seq entries =>
    rw [hres] at h
    cases hf : entries.find? (fun rd => rd.name == some r) with
    | none => simp [hf]
    | some rd =>
      exfalso
      apply h
      have hp := List.find?_some hf
      have hm := List.mem_of_find?_eq_some hf
      have : rd.name = some r := by simpa using hp
      exact List.mem_filterMap.mpr ⟨rd, hm, this⟩

theorem mem_separated_fst {k : String} {keys : List String} :
    k ∈ (separate_global_and_service_context_keys keys).1 ↔
      k ∈ keys ∧ str_starts_with k "aws:" = true := by
  unfold separate_global_and_service_context_keys
  rw [(List.perm_insertionSort _ _).mem_iff, List.mem_filter]

theorem mem_separated_snd {k : String} {keys : List String} :
    k ∈ (separate_global_and_service_context_keys keys).2 ↔
      k ∈ keys ∧ str_starts_with k "aws:" = false := by
  unfold separate_global_and_service_context_keys
  rw [(List.perm_insertionSort _ _).mem_iff, List.mem_filter]
  simp

theorem dict_lookup_insert (m : List (String × List String)) (k : String)
    (v : List String) (s : String) :
    dict_lookup (dict_insert m k v) s = if s = k then some v else dict_lookup m s := by
  induction m with
  | nil =>
    by_cases h : s = k
    · subst h
      simp [dict_insert, dict_lookup, List.find?]
    · have hb : (k == s) = false := by
        simp only [beq_eq_false_iff_ne, ne_eq]
        intro hc
        exact h hc.symm
      simp [dict_insert, dict_lookup, List.find?, hb, h]
  | cons e rest ih =>
    by_cases hek : e.1 = k
    · have hbek : (e.1 == k) = true := beq_iff_eq.mpr hek
      by_cases hsk : s = k
      · have hbks : (k == s) = true := beq_iff_eq.mpr hsk.symm
        simp [dict_insert, dict_lookup, List.find?, hbek, hbks, hsk]
      · have hbks : (k == s) = false := by
          simp only [beq_eq_false_iff_ne, ne_eq]
          intro hc
          exact hsk hc.symm
        have hbes : (e.1 == s) = false := by
          simp only [beq_eq_false_iff_ne, ne_eq]
          intro hc
          exact hsk (hek ▸ hc ▸ rfl)
        simp [dict_insert, dict_lookup, List.find?, hbek, hbks, hbes, hsk]
    · have hbek : (e.1 == k) = false := by
        simp only [beq_eq_false_iff_ne, ne_eq]
        exact hek
      by_cases hes : e.1 = s
      · have hsk2 : ¬ s = k := by
          intro hc
          exact hek (hes.trans hc)
        have hbes : (e.1 == s) = true := beq_iff_eq.mpr hes
        simp [dict_insert, dict_lookup, List.find?, hbek, hbes, hsk2]
      · have hbes : (e.1 == s) = false := by
          simp only [beq_eq_false_iff_ne, ne_eq]
          exact hes
        have lhs_eq : dict_lookup (dict_insert (e :: rest) k v) s =
            dict_lookup (dict_insert rest k v) s := by
          simp [dict_insert, dict_lookup, List.find?, hbek, hbes]
        rw [lhs_eq, ih]
        by_cases hsk : s = k
        · simp [hsk]
        · simp [dict_lookup, List.find?, hbes, hsk]

theorem across_loop_lookup (c : Catalog) (names : List String)
    (acc : List (String × List String)) (s : String) :
    (dict_lookup (across_loop c names acc) s).isSome = true ↔
      ((dict_lookup acc s).isSome = true ∨
        (s ∈ names ∧ ∃ keys,
          get_all_unique_context_keys_for_service c s = Except.ok keys ∧ keys ≠ [])) := by
  induction names generalizing acc with
  | nil => simp [across_loop]
  | cons n rest ih =>
    by_cases hsn : s = n
    · subst hsn
      cases hget : get_all_unique_context_keys_for_service c s with
      | error err =>
        have hP : ¬ ∃ keys,
            get_all_unique_context_keys_for_service c s = Except.ok keys ∧ keys ≠ [] := by
          rintro ⟨keys, hk, _⟩
          rw [hget] at hk
          exact Except.noConfusion hk
        simp only [across_loop, hget]
        simp [ih, hP]
      | ok keys =>
        by_cases hkeys : keys.isEmpty = true
        · have hknil : keys = [] := List.isEmpty_iff.mp hkeys
          have hP : ¬ ∃ keys2,
              get_all_unique_context_keys_for_service c s = Except.ok keys2 ∧ keys2 ≠ [] := by
            rintro ⟨keys2, hk, hne⟩
            rw [hget] at hk
            have hkk : keys = keys2 := by
              injection hk
            exact hne (hkk ▸ hknil)
          simp only [across_loop, hget]
          rw [if_pos hkeys]
          simp [ih, hP, hknil]
        · have hknil : keys ≠ [] := by
            intro hc
            exact hkeys (by simp [hc])
          simp only [across_loop, hget]
          rw [if_neg hkeys]
          rw [ih]
          have hins : (dict_lookup (dict_insert acc s keys) s).isSome = true := by
            rw [dict_lookup_insert]
            simp
          simp [hins, hget, hknil]
    · cases hget : get_all_unique_context_keys_for_service c n with
      | error err =>
        simp only [across_loop, hget]
        rw [ih]
        simp [List.mem_cons, hsn]
      | ok keys =>
        by_cases hkeys : keys.isEmpty = true
        · simp only [across_loop, hget]
          rw [if_pos hkeys]
          rw [ih]
          simp [List.mem_cons, hsn]
        · simp only [across_loop, hget]
          rw [if_neg hkeys]
          rw [ih, dict_lookup_insert]
          simp [List.mem_cons, hsn]

/-- C5: for every name s absent from the service index, is_valid_service
returns false and every query keyed by s returns an empty collection or
an absent value without raising: the four listed list queries return
Except.ok [] and the three lookup queries return Except.ok none. -/
theorem C5_unknown_service (c : Catalog) (s a r : String)
    (h : ¬ s ∈ get_aws_services_urls c) :
    is_valid_service c s = false ∧
    get_all_actions_for_service c s = Except.ok [] ∧
    get_resources_for_service_action c s a = Except.ok [] ∧
    get_condition_keys_for_service c s = Except.ok [] ∧
    get_all_unique_context_keys_for_service c s = Except.ok [] ∧
    find_all_service_metadata c s = Except.ok none ∧
    get_action_metadata c s a = Except.ok none ∧
    get_resource_details c s r = Except.ok none := by
  have h2 : ¬ s ∈ c.map (fun e => e.1) := by
    simpa [get_aws_services_urls] using h
  have hfind : c.find? (fun e => e.1 == s) = none := by
    rw [List.find?_eq_none]
    intro e he
    simp only [beq_iff_eq]
    intro hc
    exact h2 (hc ▸ List.mem_map_of_mem (fun x => x.1) he)
  have hmd : find_all_service_metadata c s = Except.ok none := by
    simp [find_all_service_metadata, hfind]
  refine ⟨?_, ?_, ?_, ?_, ?_, hmd, ?_, ?_⟩
  · simp only [is_valid_service]
    simpa using h
  · simp [get_all_actions_for_service, hmd, Except.map]
  · simp [get_resources_for_service_action, hmd, Except.map]
  · simp [get_condition_keys_for_service, hmd, Except.map]
  · simp [get_all_unique_context_keys_for_service, hmd, Except.map]
  · simp [get_action_metadata, hmd, Except.map]
  · simp [get_resource_details, hmd, Except.map]

/-- C5 witness: the name nosuch is absent from the example index, so the
guarantees of C5_unknown_service hold there concretely. -/
theorem C5_unknown_service_witness :
    is_valid_service ex_catalog "nosuch" = false ∧
    get_all_actions_for_service ex_catalog "nosuch" = Except.ok [] ∧
    get_resources_for_service_action ex_catalog "nosuch" "DoThing" = Except.ok [] ∧
    get_condition_keys_for_service ex_catalog "nosuch" = Except.ok [] ∧
    get_all_unique_context_keys_for_service ex_catalog "nosuch" = Except.ok [] ∧
    find_all_service_metadata ex_catalog "nosuch" = Except.ok none ∧
    get_action_metadata ex_catalog "nosuch" "DoThing" = Except.ok none ∧
    get_resource_details ex_catalog "nosuch" "widget" = Except.ok none :=
  C5_unknown_service ex_catalog "nosuch" "DoThing" "widget" (by decide)

/-- C7: against a known service document, get_resources_for_service_action
returns the referenced resource names in document order when the first
matching action carries an explicit Resources list, exactly ["*"] when
that action has no Resources list, and [] when no action of that name
exists. -/
theorem C7_resources_for_action (c : Catalog) (s a : String) (d : ServiceDoc)
    (hd : find_all_service_metadata c s = Except.ok (some d)) :
    (∀ act rs, d.actions.find? (fun x => x.name == a) = some act →
      act.resources = some rs →
      get_resources_for_service_action c s a =
        Except.ok (rs.map (fun ref => ref.name))) ∧
    (∀ act, d.actions.find? (fun x => x.name == a) = some act →
      act.resources = none →
      get_resources_for_service_action c s a = Except.ok ["*"]) ∧
    (d.actions.find? (fun x => x.name == a) = none →
      get_resources_for_service_action c s a = Except.ok []) := by
  refine ⟨?_, ?_, ?_⟩
  · intro act rs hact hres
    simp [get_resources_for_service_action, hd, Except.map,
      get_resources_for_service_action_doc, hact, hres]
  · intro act hact hres
    simp [get_resources_for_service_action, hd, Except.map,
      get_resources_for_service_action_doc, hact, hres]
  · intro hact
    simp [get_resources_for_service_action, hd, Except.map,
      get_resources_for_service_action_doc, hact]

/-- C7 witness: in the example catalog the action DoThing lists its two
resources in document order. -/
theorem C7_resources_for_action_witness :
    get_resources_for_service_action ex_catalog "svc" "DoThing" =
      Except.ok ["widget", "ghost"] :=
  (C7_resources_for_action ex_catalog "svc" "DoThing" ex_doc rfl).1
    ex_act_do [⟨"widget"⟩, ⟨"ghost"⟩] rfl rfl

/-- C10: when the first action matching the queried name has no Resources
field, get_action_metadata returns a detail record whose resources list is
exactly the wildcard record with arn_formats ["*"] (not the ["N/A"]
sentinel) and empty condition keys. -/
theorem C10_wildcard_record (c : Catalog) (s a : String) (d : ServiceDoc) (act : ActionData)
    (hd : find_all_service_metadata c s = Except.ok (some d))
    (hact : d.actions.find? (fun x => x.name == a) = some act)
    (hnores : act.resources = none) :
    get_action_metadata c s a =
      Except.ok (some ⟨a, [⟨"*", ["*"], []⟩], act.action_condition_keys⟩) := by
  simp [get_action_metadata, hd, Except.map, get_action_metadata_doc, hact, hnores]

/-- C10 witness: the example action ListThings has no Resources field and
yields exactly the wildcard record. -/
theorem C10_wildcard_record_witness :
    get_action_metadata ex_catalog "svc" "ListThings" =
      Except.ok (some ⟨"ListThings", [⟨"*", ["*"], []⟩], ex_act_list.action_condition_keys⟩) :=
  C10_wildcard_record ex_catalog "svc" "ListThings" ex_doc ex_act_list rfl rfl rfl

theorem resource_details_doc_arn_shape {d : ServiceDoc} {r : String} {rec : ResourceDetail}
    (h : get_resource_details_doc d r = some rec) :
    ∃ v : ArnValue, rec.arn_formats = arn_display v := by
  unfold get_resource_details_doc at h
  split at h
  all_goals split at h
  · injection h with h2
    exact ⟨_, by rw [← h2]⟩
  · exact absurd h (by simp)
  · injection h with h2
    exact ⟨_, by rw [← h2]⟩
  · exact absurd h (by simp)

/-- C9: whenever get_resource_details returns a record, its arn_formats
field is non-empty; it is the normalisation of the ARNFormats value found
in the document, so an absent or empty list becomes exactly ["N/A"] and a
scalar value becomes a one-element list. -/
theorem C9_arn_formats_nonempty (c : Catalog) (s r : String) (rec : ResourceDetail)
    (h : get_resource_details c s r = Except.ok (some rec)) :
    rec.arn_formats ≠ [] ∧
    ∃ v : ArnValue, rec.arn_formats = arn_display v ∧
      (v = ArnValue.list [] → rec.arn_formats = ["N/A"]) ∧
      (∀ x, v = ArnValue.scalar x → rec.arn_formats.length = 1) := by
  have hdoc : ∃ d : ServiceDoc, get_resource_details_doc d r = some rec := by
    unfold get_resource_details at h
    cases hmd : find_all_service_metadata c s with
    | error err =>
      rw [hmd] at h
      exact absurd h (by simp [Except.map])
    | ok md =>
      rw [hmd] at h
      cases md with
      | none =>
        exact absurd h (by simp [Except.map])
      | some d =>
        refine ⟨d, ?_⟩
        simpa [Except.map] using h
  obtain ⟨d, hdr⟩ := hdoc
  obtain ⟨v, hv⟩ := resource_details_doc_arn_shape hdr
  refine ⟨hv ▸ arn_display_ne_nil v, v, hv, ?_, ?_⟩
  · intro hveq
    rw [hv, hveq]
    simp [arn_display]
  · intro x hveq
    rw [hv, hveq]
    exact arn_display_scalar_length x

/-- C9 witness: the documented example resource widget carries a concrete
non-empty arn_formats list. -/
theorem C9_arn_formats_nonempty_witness :
    (⟨"widget", ["arn:aws:svc:::widget"], ["svc:wk"]⟩ : ResourceDetail).arn_formats ≠ [] ∧
    ∃ v : ArnValue,
      (⟨"widget", ["arn:aws:svc:::widget"], ["svc:wk"]⟩ : ResourceDetail).arn_formats =
        arn_display v ∧
      (v = ArnValue.list [] →
        (⟨"widget", ["arn:aws:svc:::widget"], ["svc:wk"]⟩ : ResourceDetail).arn_formats =
          ["N/A"]) ∧
      (∀ x, v = ArnValue.scalar x →
        (⟨"widget", ["arn:aws:svc:::widget"], ["svc:wk"]⟩ : ResourceDetail).arn_formats.length =
          1) :=
  C9_arn_formats_nonempty ex_catalog "svc" "widget"
    ⟨"widget", ["arn:aws:svc:::widget"], ["svc:wk"]⟩ rfl

/-- C2: an action that references a resource name absent from the
Resources collection still yields an action detail (no failure), and that
detail contains the degraded record with arn_formats ["N/A"] and empty
condition keys for the missing resource. -/
theorem C2_missing_resource_degrades (c : Catalog) (s a r : String) (d : ServiceDoc)
    (act : ActionData) (rs : List ActionResourceRef)
    (hd : find_all_service_metadata c s = Except.ok (some d))
    (hact : d.actions.find? (fun x => x.name == a) = some act)
    (hres : act.resources = some rs)
    (hr : (⟨r⟩ : ActionResourceRef) ∈ rs)
    (hmiss : ¬ r ∈ doc_resource_names d) :
    ∃ ad : ActionDetail, get_action_metadata c s a = Except.ok (some ad) ∧
      (⟨r, ["N/A"], []⟩ : ResourceDetail) ∈ ad.resources := by
  have hnone := resource_details_doc_eq_none hmiss
  refine ⟨⟨a, rs.map (fun ref =>
      match get_resource_details_doc d ref.name with
      | some det => ⟨ref.name, det.arn_formats, det.context_keys⟩
      | none => ⟨ref.name, ["N/A"], []⟩), act.action_condition_keys⟩, ?_, ?_⟩
  · simp [get_action_metadata, hd, Except.map, get_action_metadata_doc, hact, hres]
  · refine List.mem_map.mpr ⟨⟨r⟩, hr, ?_⟩
    simp [hnone]

/-- C2 witness: the example action DoThing references the undocumented
resource ghost, and the degraded record appears in its detail. -/
theorem C2_missing_resource_degrades_witness :
    ∃ ad : ActionDetail,
      get_action_metadata ex_catalog "svc" "DoThing" = Except.ok (some ad) ∧
      (⟨"ghost", ["N/A"], []⟩ : ResourceDetail) ∈ ad.resources :=
  C2_missing_resource_degrades ex_catalog "svc" "DoThing" "ghost" ex_doc ex_act_do
    [⟨"widget"⟩, ⟨"ghost"⟩] rfl rfl rfl (by decide) (by decide)

/-- C4: the global and service-specific key lists of a service are both
subsets, as sets, of the full unique key list, they are disjoint, their
union equals it, and membership in the global part holds exactly for the
keys of the full list that start with the aws: prefix. -/
theorem C4_context_key_partition (c : Catalog) (s : String)
    (allk gk sk : List String)
    (hall : get_all_unique_context_keys_for_service c s = Except.ok allk)
    (hg : get_global_context_keys_for_service c s = Except.ok gk)
    (hsk : get_service_specific_context_keys_for_service c s = Except.ok sk) :
    (∀ k, k ∈ gk → k ∈ allk) ∧
    (∀ k, k ∈ sk → k ∈ allk) ∧
    (∀ k, ¬ (k ∈ gk ∧ k ∈ sk)) ∧
    (∀ k, k ∈ allk ↔ (k ∈ gk ∨ k ∈ sk)) ∧
    (∀ k, k ∈ gk ↔ (k ∈ allk ∧ str_starts_with k "aws:" = true)) := by
  have hg2 : gk = (separate_global_and_service_context_keys allk).1 := by
    have hx := hg
    simp only [get_global_context_keys_for_service,
      get_separated_context_keys_for_service, hall, Except.map] at hx
    injection hx with hx2
    exact hx2.symm
  have hs2 : sk = (separate_global_and_service_context_keys allk).2 := by
    have hx := hsk
    simp only [get_service_specific_context_keys_for_service,
      get_separated_context_keys_for_service, hall, Except.map] at hx
    injection hx with hx2
    exact hx2.symm
  subst hg2
  subst hs2
  refine ⟨?_, ?_, ?_, ?_, ?_⟩
  · intro k hk
    exact (mem_separated_fst.mp hk).1
  · intro k hk
    exact (mem_separated_snd.mp hk).1
  · rintro k ⟨hk1, hk2⟩
    have h1 := (mem_separated_fst.mp hk1).2
    have h2 := (mem_separated_snd.mp hk2).2
    rw [h1] at h2
    exact Bool.noConfusion h2
  · intro k
    constructor
    · intro hk
      cases hb : str_starts_with k "aws:" with
      | true => exact Or.inl (mem_separated_fst.mpr ⟨hk, hb⟩)
      | false => exact Or.inr (mem_separated_snd.mpr ⟨hk, hb⟩)
    · rintro (hk | hk)
      · exact (mem_separated_fst.mp hk).1
      · exact (mem_separated_snd.mp hk).1
  · intro k
    exact mem_separated_fst

/-- C4 witness: the partition properties instantiated on the example
service, whose four keys split two and two. -/
theorem C4_context_key_partition_witness :
    (∀ k, k ∈ (["aws:sourceip", "aws:userid"] : List String) →
      k ∈ (["aws:sourceip", "aws:userid", "svc:foo", "svc:wk"] : List String)) ∧
    (∀ k, k ∈ (["svc:foo", "svc:wk"] : List String) →
      k ∈ (["aws:sourceip", "aws:userid", "svc:foo", "svc:wk"] : List String)) ∧
    (∀ k, ¬ (k ∈ (["aws:sourceip", "aws:userid"] : List String) ∧
      k ∈ (["svc:foo", "svc:wk"] : List String))) ∧
    (∀ k, k ∈ (["aws:sourceip", "aws:userid", "svc:foo", "svc:wk"] : List String) ↔
      (k ∈ (["aws:sourceip", "aws:userid"] : List String) ∨
        k ∈ (["svc:foo", "svc:wk"] : List String))) ∧
    (∀ k, k ∈ (["aws:sourceip", "aws:userid"] : List String) ↔
      (k ∈ (["aws:sourceip", "aws:userid", "svc:foo", "svc:wk"] : List String) ∧
        str_starts_with k "aws:" = true)) :=
  C4_context_key_partition ex_catalog "svc"
    ["aws:sourceip", "aws:userid", "svc:foo", "svc:wk"]
    ["aws:sourceip", "aws:userid"] ["svc:foo", "svc:wk"] rfl rfl rfl

/-- C6: the catalog-wide aggregation holds an entry for a service name
exactly when that name is in the index and its per-service key
computation succeeds with a non-empty list; a service whose document
fetch fails is skipped without disturbing the entries of the others. -/
theorem C6_across_catalog_membership (c : Catalog) (s : String) :
    (dict_lookup (get_all_unique_context_keys_across_aws c) s).isSome = true ↔
      (s ∈ get_aws_services_urls c ∧ ∃ keys,
        get_all_unique_context_keys_for_service c s = Except.ok keys ∧ keys ≠ []) := by
  unfold get_all_unique_context_keys_across_aws
  rw [across_loop_lookup]
  simp [dict_lookup]

/-- C3: for a pair of service documents identical except that one encodes
Resources as a mapping and the other as the equivalent sequence of the
same records each carrying its key as its Name field, get_resource_details
and get_all_unique_resources_for_service produce identical results. -/
theorem C3_resources_encoding_round_trip (entries : List (String × ResourceData))
    (acts : List ActionData) (cks : List ConditionKeyData) (r : String) :
    get_resource_details_doc ⟨acts, ResourcesField.dict entries, cks⟩ r =
      get_resource_details_doc
        ⟨acts, ResourcesField.seq (entries.map to_seq_entry), cks⟩ r ∧
    get_all_unique_resources_doc ⟨acts, ResourcesField.dict entries, cks⟩ =
      get_all_unique_resources_doc
        ⟨acts, ResourcesField.seq (entries.map to_seq_entry), cks⟩ := by
  constructor
  · show (match entries.find? (fun e => e.1 == r) with
      | some e =>
        some (⟨r, arn_display e.2.arn_formats_field, e.2.condition_keys_field⟩ : ResourceDetail)
      | none => none) =
      (match (entries.map to_seq_entry).find? (fun rd => rd.name == some r) with
      | some rd =>
        some (⟨r, arn_display rd.arn_formats_field, rd.condition_keys_field⟩ : ResourceDetail)
      | none => none)
    rw [List.find?_map]
    have hpred : ((fun rd : ResourceData => rd.name == some r) ∘ to_seq_entry) =
        (fun e : String × ResourceData => e.1 == r) := by
      funext e
      simp [to_seq_entry, Function.comp]
    rw [hpred]
    cases entries.find? (fun e : String × ResourceData => e.1 == r) with
    | none => rfl
    | some e => rfl
  · show entries.map (fun e =>
        (⟨e.1, arn_display e.2.arn_formats_field, e.2.condition_keys_field⟩ : ResourceDetail)) =
      (entries.map to_seq_entry).map (fun rd =>
        (⟨rd.name.getD "Unknown", arn_display rd.arn_formats_field,
          rd.condition_keys_field⟩ : ResourceDetail))
    rw [List.map_map]
    rfl

/-- C1 counterexample: a document whose Resources array repeats one
record makes get_all_unique_resources_for_service return a list with a
duplicate element, so the unique-resources list is neither deduplicated
nor sorted as the claim states. -/
theorem C1_counterexample :
    get_all_unique_resources_for_service dup_catalog "svc" =
      Except.ok [⟨"a", ["N/A"], []⟩, ⟨"a", ["N/A"], []⟩] ∧
    ¬ ([(⟨"a", ["N/A"], []⟩ : ResourceDetail), ⟨"a", ["N/A"], []⟩] : List ResourceDetail).Nodup := by
  constructor
  · rfl
  · decide

/-- C1 amended: the two context-key aggregations are deduplicated and
sorted in strictly increasing lexicographic order, while the
unique-resources list instead returns one record per Resources entry in
document order, neither deduplicated nor sorted. -/
theorem C1_amended_sorted_keys (c : Catalog) (s : String) (keys : List String)
    (d : ServiceDoc)
    (hk : get_all_unique_context_keys_for_service c s = Except.ok keys)
    (hd : find_all_service_metadata c s = Except.ok (some d)) :
    keys.Pairwise (fun a b => a < b) ∧
    (get_all_unique_context_keys_flattened c).Pairwise (fun a b => a < b) ∧
    get_all_unique_resources_for_service c s =
      Except.ok (get_all_unique_resources_doc d) ∧
    (get_all_unique_resources_doc d).length = get_unique_resources_count_doc d := by
  have hk2 : keys = get_all_unique_context_keys_doc d := by
    have hx := hk
    simp only [get_all_unique_context_keys_for_service, hd, Except.map] at hx
    injection hx with hx2
    exact hx2.symm
  refine ⟨?_, ?_, ?_, ?_⟩
  · rw [hk2]
    exact pairwise_lt_sorted_dedup _
  · exact pairwise_lt_sorted_dedup _
  · simp [get_all_unique_resources_for_service, hd, Except.map]
  · unfold get_all_unique_resources_doc get_unique_resources_count_doc
    cases d.resources with
    | dict entries => simp
    | seq entries => simp

/-- C1 amended witness: the guarantees instantiated on the example
catalog, whose four context keys come out strictly sorted. -/
theorem C1_amended_sorted_keys_witness :
    (["aws:sourceip", "aws:userid", "svc:foo", "svc:wk"] : List String).Pairwise
      (fun a b => a < b) ∧
    (get_all_unique_context_keys_flattened ex_catalog).Pairwise (fun a b => a < b) ∧
    get_all_unique_resources_for_service ex_catalog "svc" =
      Except.ok (get_all_unique_resources_doc ex_doc) ∧
    (get_all_unique_resources_doc ex_doc).length = get_unique_resources_count_doc ex_doc :=
  C1_amended_sorted_keys ex_catalog "svc"
    ["aws:sourceip", "aws:userid", "svc:foo", "svc:wk"] ex_doc rfl rfl

/-- C8 counterexample: the source lowercases both sides, so the invalid
input EC2 is offered the candidate ec2 even though none of the three
case-sensitive rules of the claim relates EC2 to ec2. -/
theorem C8_counterexample :
    get_similar_services ["ec2"] "EC2" 5 = ["ec2"] ∧
    (List.filter (fun candidate => claim_suggestion_rule "EC2" candidate) ["ec2"]).take 5 =
      [] := by
  constructor
  · rfl
  · rfl

/-- C8 amended: get_similar_services returns exactly the first limit
index-order candidates satisfying the three-rule heuristic applied
case-insensitively, comparing the lowercased input against each
lowercased candidate, with no scoring or reordering. -/
theorem C8_amended_lowercase_rule (service_names : List String)
    (invalid_service : String) (max_suggestions : Nat) :
    get_similar_services service_names invalid_service max_suggestions =
      (service_names.filter (fun candidate =>
        claim_suggestion_rule (str_lower invalid_service) (str_lower candidate))).take
        max_suggestions := rfl
